import Mathlib

/-!
Verification of the session/context-management core of the Grangy/mehelp bot.

The definitions below are a shallow embedding of `ContextManager` (history
append with retention trimming, inactivity sweep, memory merge) and of the
prompt-assembly functions of `GeminiService` (`prepareConversationHistory`,
`buildMemoryContext`).  State is passed explicitly; `Date.now()` becomes an
explicit `now : Nat` argument (milliseconds since epoch); the persisted JSON
document is the `DatabaseSchema` value itself, and every operation reports
with a `Bool` whether it wrote the document (`save()` calls).
-/

namespace Mehelp

/-- Role of one chat message (`'user' | 'assistant' | 'system'`). -/
inductive Role where
  | user
  | assistant
  | system
deriving DecidableEq, Repr

/-- Optional modality tag (`'text' | 'image' | 'voice'`). -/
inductive MessageType where
  | text
  | image
  | voice
deriving DecidableEq, Repr

/-- One turn of conversation (interface `ChatMessage`). -/
structure ChatMessage where
  role : Role
  content : String
  timestamp : Nat
  messageType : Option MessageType
deriving DecidableEq, Repr

/-- A loosely-typed JSON scalar, standing in for the `any` values stored in
`preferences` (the repository stores strings and booleans there). -/
inductive JsonVal where
  | str (s : String)
  | bool (b : Bool)
  | num (n : Int)
deriving DecidableEq, Repr

/-- JS template-literal rendering of a preference value. -/
def JsonVal.render : JsonVal → String
  | .str s => s
  | .bool b => if b then "true" else "false"
  | .num n => toString n

/-- The `userMemory` record of a session. -/
structure UserMemory where
  interests : List String
  preferences : List (String × JsonVal)
  goals : List String
  communicationStyle : String
deriving DecidableEq, Repr

/-- `Partial<UserSession['userMemory']>`: each field may be absent. -/
structure MemoryPatch where
  interests : Option (List String)
  preferences : Option (List (String × JsonVal))
  goals : Option (List String)
  communicationStyle : Option String
deriving DecidableEq, Repr

/-- Per-user session state (interface `UserSession`). -/
structure UserSession where
  chatId : Int
  userId : Nat
  username : Option String
  firstName : Option String
  lastName : Option String
  history : List ChatMessage
  userMemory : UserMemory
  createdAt : Nat
  lastActivity : Nat
deriving DecidableEq, Repr

/-- Aggregate counters of the store. -/
structure Statistics where
  totalUsers : Nat
  totalMessages : Nat
  lastReset : Nat
deriving DecidableEq, Repr

/-- The persisted root aggregate (interface `DatabaseSchema`).  `users` is a
`Record<number, UserSession>`, modelled as an association list keyed by
userId; a JS object cannot hold a key twice, so reachable lists have
pairwise-distinct keys. -/
structure DatabaseSchema where
  users : List (Nat × UserSession)
  statistics : Statistics
deriving DecidableEq, Repr

/-- Display info extracted from `userInfo?` at first contact. -/
structure UserInfo where
  username : Option String
  firstName : Option String
  lastName : Option String
deriving DecidableEq, Repr

/-- Key lookup `this.data.users[userId]`. -/
def lookupUser (db : DatabaseSchema) (userId : Nat) : Option UserSession :=
  (db.users.find? (fun p => p.1 == userId)).map (fun p => p.2)

/-- Key assignment `this.data.users[userId] = s`: replace the binding when the
key is present, append a fresh binding otherwise. -/
def setUser : List (Nat × UserSession) → Nat → UserSession → List (Nat × UserSession)
  | [], userId, s => [(userId, s)]
  | p :: rest, userId, s =>
      if p.1 = userId then (userId, s) :: rest else p :: setUser rest userId s

/-- The seeded system message placed in a fresh or cleared history. -/
def seedMessage (now : Nat) : ChatMessage :=
  { role := Role.system
    content := "Системное сообщение будет загружено из prompt.json"
    timestamp := now
    messageType := none }

/-- Default `userMemory` profile of a newly created session. -/
def defaultUserMemory : UserMemory :=
  { interests := ["эмоциональная поддержка", "трезвость", "восстановление"]
    preferences :=
      [("tone", JsonVal.str "доброжелательный, спокойный, уверенный, сочувствующий"),
       ("style", JsonVal.str "на русском языке, простыми словами, с теплом"),
       ("crisis_support", JsonVal.bool true)]
    goals := ["поддержание трезвости", "эмоциональное восстановление", "управление депрессией"]
    communicationStyle := "therapeutic_support" }

/-- The empty store written by `initialize()` when no prior document exists. -/
def initialStore (now : Nat) : DatabaseSchema :=
  { users := []
    statistics := { totalUsers := 0, totalMessages := 0, lastReset := now } }

/-- The fresh session literal built by `getUserSession` on first contact:
one seeded system message, the default memory profile, both timestamps set
to now. -/
def newSession (chatId : Int) (userId : Nat) (userInfo : Option UserInfo)
    (now : Nat) : UserSession :=
  { chatId := chatId
    userId := userId
    username := userInfo.bind (fun i => i.username)
    firstName := userInfo.bind (fun i => i.firstName)
    lastName := userInfo.bind (fun i => i.lastName)
    history := [seedMessage now]
    userMemory := defaultUserMemory
    createdAt := now
    lastActivity := now }

/-- `ContextManager.getUserSession`: return the existing session (refreshing
`lastActivity`) or create a seeded one, bumping `totalUsers`.  Returns the
session, the new store, and whether `save()` ran. -/
def getUserSession (chatId : Int) (userId : Nat) (userInfo : Option UserInfo)
    (now : Nat) (db : DatabaseSchema) : UserSession × DatabaseSchema × Bool :=
  match lookupUser db userId with
  | none =>
      (newSession chatId userId userInfo now,
       { users := setUser db.users userId (newSession chatId userId userInfo now)
         statistics := { db.statistics with totalUsers := db.statistics.totalUsers + 1 } },
       true)
  | some user =>
      let user := { user with lastActivity := now }
      (user, { db with users := setUser db.users userId user }, true)

/-- JavaScript `Array.prototype.slice(start)`: a negative `start` counts from
the end, clamped at 0; a non-negative `start` is clamped at the length. -/
def jsSlice {α : Type} (start : Int) (l : List α) : List α :=
  let len : Int := (l.length : Int)
  let s : Int := if start < 0 then max (len + start) 0 else min start len
  l.drop s.toNat

/-- The auto-trim step of `addMessage`: when the pushed history exceeds
`maxHistoryLength`, keep `history.find(role === 'system')` (the FIRST system
message, if any) in front of `history.slice(-maxHistoryLength + 1)`. -/
def trimHistory (maxHistoryLength : Nat) (history : List ChatMessage) : List ChatMessage :=
  if history.length > maxHistoryLength then
    let systemMessage := history.find? (fun msg => msg.role == Role.system)
    let recentMessages := jsSlice (-(maxHistoryLength : Int) + 1) history
    match systemMessage with
    | some m => m :: recentMessages
    | none => recentMessages
  else history

/-- `ContextManager.addMessage`: fails when no session exists; otherwise
pushes the message, refreshes `lastActivity`, trims, bumps `totalMessages`
and saves.  Returns the thrown-or-ok outcome, the store, and the save flag. -/
def addMessage (maxHistoryLength : Nat) (userId : Nat) (message : ChatMessage)
    (now : Nat) (db : DatabaseSchema) : Except String Unit × DatabaseSchema × Bool :=
  match lookupUser db userId with
  | none => (Except.error "User session not found", db, false)
  | some user =>
      let user :=
        { user with
          history := trimHistory maxHistoryLength (user.history ++ [message])
          lastActivity := now }
      (Except.ok (),
       { users := setUser db.users userId user
         statistics := { db.statistics with totalMessages := db.statistics.totalMessages + 1 } },
       true)

/-- `ContextManager.getHistory`: the session's history, or `[]` when the
session is absent.  A pure read: the store is not touched. -/
def getHistory (userId : Nat) (db : DatabaseSchema) : List ChatMessage :=
  match lookupUser db userId with
  | some user => user.history
  | none => []

/-- `ContextManager.clearHistory`: reset the history to one fresh seed
message; silently a no-op when the session is absent. -/
def clearHistory (userId : Nat) (now : Nat) (db : DatabaseSchema) :
    DatabaseSchema × Bool :=
  match lookupUser db userId with
  | none => (db, false)
  | some user =>
      ({ db with users := setUser db.users userId { user with history := [seedMessage now] } },
       true)

/-- The spread `{ ...user.userMemory, ...memory }`: fields present in the
patch replace wholesale, absent fields keep their previous value. -/
def mergeMemory (m : UserMemory) (p : MemoryPatch) : UserMemory :=
  { interests := p.interests.getD m.interests
    preferences := p.preferences.getD m.preferences
    goals := p.goals.getD m.goals
    communicationStyle := p.communicationStyle.getD m.communicationStyle }

/-- `ContextManager.updateUserMemory`: shallow-merge the patch into the
profile; silently a no-op when the session is absent. -/
def updateUserMemory (userId : Nat) (p : MemoryPatch) (db : DatabaseSchema) :
    DatabaseSchema × Bool :=
  match lookupUser db userId with
  | none => (db, false)
  | some user =>
      ({ db with users := setUser db.users userId { user with userMemory := mergeMemory user.userMemory p } },
       true)

/-- `ContextManager.getUserMemory`: the profile, or `null` when absent.
A pure read: the store is not touched. -/
def getUserMemory (userId : Nat) (db : DatabaseSchema) : Option UserMemory :=
  match lookupUser db userId with
  | some user => some user.userMemory
  | none => none

/-- `ContextManager.getStatistics`: read-only access to the counters. -/
def getStatistics (db : DatabaseSchema) : Statistics :=
  db.statistics

/-- `ContextManager.cleanupInactiveUsers`: compute the cutoff
`now − daysInactive·24·60·60·1000`, collect the ids of sessions whose
`lastActivity` is strictly below it, delete each, and save only when at
least one id was collected. -/
def cleanupInactiveUsers (daysInactive : Nat) (now : Nat) (db : DatabaseSchema) :
    DatabaseSchema × Bool :=
  let cutoffTime := now - daysInactive * 86400000
  let inactiveUserIds :=
    (db.users.filter (fun p => p.2.lastActivity < cutoffTime)).map (fun p => p.1)
  let users :=
    inactiveUserIds.foldl (fun us uid => us.filter (fun p => p.1 != uid)) db.users
  ({ db with users := users }, inactiveUserIds.length > 0)

/-- The persona/style document loaded from `prompt.json`
(`this.customPrompt`).  The code tests each field for JS truthiness, so an
absent field and an empty string behave alike; fields are therefore plain
strings with `""` meaning absent, and the instruction list defaults to `[]`. -/
structure CustomPrompt where
  persona : String
  tone : String
  style : String
  systemInstructions : List String
deriving DecidableEq, Repr

/-- One turn handed to the generation backend: `{role, parts: [{text}]}`. -/
structure GeminiTurn where
  role : String
  text : String
deriving DecidableEq, Repr

/-- Fallback persona used when `prompt.json` provides none. -/
def defaultPersona : String :=
  "Ты — дружелюбный и умный AI-помощник. Помни контекст разговора и будь полезным."

/-- `GeminiService.buildMemoryContext`: render the non-empty profile fields
as clauses and join them with `"; "`. -/
def buildMemoryContext (userMemory : UserMemory) : String :=
  let contextParts : List String :=
    (if userMemory.interests.length > 0 then
      ["Интересы: " ++ String.intercalate ", " userMemory.interests] else []) ++
    (if userMemory.goals.length > 0 then
      ["Цели: " ++ String.intercalate ", " userMemory.goals] else []) ++
    (if userMemory.communicationStyle ≠ "" then
      ["Стиль общения: " ++ userMemory.communicationStyle] else []) ++
    (if userMemory.preferences.length > 0 then
      ["Предпочтения: " ++ String.intercalate ", "
        (userMemory.preferences.map (fun kv => kv.1 ++ ": " ++ kv.2.render))] else [])
  String.intercalate "; " contextParts

/-- `GeminiService.prepareConversationHistory`: compose the system block
from the persona document (persona, then tone, style, auxiliary
instructions, then — when enabled and non-empty — the rendered memory
context), emit it as a `user`/`model` opening pair, then map the history,
skipping `system` messages and remapping roles. -/
def prepareConversationHistory (customPrompt : CustomPrompt) (enableUserMemory : Bool)
    (messages : List ChatMessage) (userMemory : Option UserMemory) : List GeminiTurn :=
  let systemMessage :=
    if customPrompt.persona ≠ "" then customPrompt.persona else defaultPersona
  let systemMessage :=
    if customPrompt.tone ≠ "" then
      systemMessage ++ "\n\nТон общения: " ++ customPrompt.tone
    else systemMessage
  let systemMessage :=
    if customPrompt.style ≠ "" then
      systemMessage ++ "\n\nСтиль: " ++ customPrompt.style
    else systemMessage
  let systemMessage :=
    if customPrompt.systemInstructions.length > 0 then
      systemMessage ++ "\n\nДополнительные инструкции:\n" ++
        String.intercalate "\n" customPrompt.systemInstructions
    else systemMessage
  let systemMessage :=
    match userMemory with
    | some m =>
        if enableUserMemory then
          let memoryContext := buildMemoryContext m
          if memoryContext ≠ "" then
            systemMessage ++ "\n\nКонтекст пользователя: " ++ memoryContext
          else systemMessage
        else systemMessage
    | none => systemMessage
  ({ role := "user", text := systemMessage } : GeminiTurn) ::
  ({ role := "model", text := "Понял! Я готов помочь и буду учитывать контекст нашего разговора." } : GeminiTurn) ::
  (messages.filter (fun m => m.role != Role.system)).map
    (fun m => { role := if m.role == Role.user then "user" else "model", text := m.content })

/-! ### Operation traces

To state store-wide invariants (claim about the counters) we close the
`ContextManager` API under sequencing: an `Op` is one public call, `stepOp`
its effect on the store. -/

/-- One call of the public `ContextManager` API. -/
inductive Op where
  | getSession (chatId : Int) (userId : Nat) (userInfo : Option UserInfo) (now : Nat)
  | append (userId : Nat) (message : ChatMessage) (now : Nat)
  | readHistory (userId : Nat)
  | clear (userId : Nat) (now : Nat)
  | updMemory (userId : Nat) (p : MemoryPatch)
  | readMemory (userId : Nat)
  | readStats
  | sweep (daysInactive : Nat) (now : Nat)

/-- Effect of one API call on the store (`maxHistoryLength = H`). -/
def stepOp (H : Nat) (db : DatabaseSchema) : Op → DatabaseSchema
  | Op.getSession c u i n => (getUserSession c u i n db).2.1
  | Op.append u m n => (addMessage H u m n db).2.1
  | Op.readHistory _ => db
  | Op.clear u n => (clearHistory u n db).1
  | Op.updMemory u p => (updateUserMemory u p db).1
  | Op.readMemory _ => db
  | Op.readStats => db
  | Op.sweep d n => (cleanupInactiveUsers d n db).1

/-- Run a sequence of API calls left to right. -/
def runOps (H : Nat) (db : DatabaseSchema) : List Op → DatabaseSchema
  | [] => db
  | op :: rest => runOps H (stepOp H db op) rest

/-- Whether this call creates a session in the given state. -/
def createsSession (db : DatabaseSchema) : Op → Bool
  | Op.getSession _ u _ _ => (lookupUser db u).isNone
  | _ => false

/-- Whether this call is an append that succeeds in the given state. -/
def appendSucceeds (db : DatabaseSchema) : Op → Bool
  | Op.append u _ _ => (lookupUser db u).isSome
  | _ => false

/-- Number of sessions created along a trace. -/
def countCreated (H : Nat) (db : DatabaseSchema) : List Op → Nat
  | [] => 0
  | op :: rest =>
      (if createsSession db op then 1 else 0) + countCreated H (stepOp H db op) rest

/-- Number of successful appends along a trace. -/
def countAppended (H : Nat) (db : DatabaseSchema) : List Op → Nat
  | [] => 0
  | op :: rest =>
      (if appendSucceeds db op then 1 else 0) + countAppended H (stepOp H db op) rest

/-- Run a sequence of `addMessage` calls (message together with its
`Date.now()`), keeping only the store. -/
def runAppends (H : Nat) (userId : Nat) (db : DatabaseSchema) :
    List (ChatMessage × Nat) → DatabaseSchema
  | [] => db
  | (m, n) :: rest => runAppends H userId (addMessage H userId m n db).2.1 rest

/-- The most recent (last) message with role `system`, the retention target
named by the spec's wording — for comparison with the implementation, which
retains the first such message. -/
def specMostRecentSystem (history : List ChatMessage) : Option ChatMessage :=
  (history.filter (fun m => m.role == Role.system)).getLast?

/-- The `n` most recent elements in original order. -/
def lastN {α : Type} (n : Nat) (l : List α) : List α :=
  l.drop (l.length - n)

/-- Shorthand for building a concrete message in test fixtures. -/
def msgOf (r : Role) (c : String) (t : Nat) : ChatMessage :=
  { role := r, content := c, timestamp := t, messageType := none }

/-- A concrete session fixture used by witnesses. -/
def mkSession (userId : Nat) (history : List ChatMessage) (lastActivity : Nat) : UserSession :=
  { chatId := 1
    userId := userId
    username := none
    firstName := none
    lastName := none
    history := history
    userMemory := defaultUserMemory
    createdAt := 0
    lastActivity := lastActivity }

/-- A concrete one-session store fixture used by witnesses. -/
def mkDb (userId : Nat) (s : UserSession) (stats : Statistics) : DatabaseSchema :=
  { users := [(userId, s)], statistics := stats }

end Mehelp

namespace Mehelp

/-! ### Helper lemmas about the store primitives -/

/-- Assigning a key and then looking it up yields the assigned session. -/
theorem find_setUser_self (userId : Nat) (s : UserSession) :
    ∀ us : List (Nat × UserSession),
      (setUser us userId s).find? (fun p => p.1 == userId) = some (userId, s) := by
  intro us
  induction us with
  | nil => simp [setUser]
  | cons a t ih =>
      by_cases h : a.1 = userId
      · simp [setUser, h]
      · simp only [setUser, if_neg h]
        rw [List.find?_cons_of_neg _ (by simp [h])]
        exact ih

/-- Assigning one key leaves lookups of any other key unchanged. -/
theorem find_setUser_ne (userId uid2 : Nat) (s : UserSession) (hne : uid2 ≠ userId) :
    ∀ us : List (Nat × UserSession),
      (setUser us userId s).find? (fun p => p.1 == uid2) =
        us.find? (fun p => p.1 == uid2) := by
  intro us
  induction us with
  | nil => simp [setUser, Ne.symm hne]
  | cons a t ih =>
      by_cases h : a.1 = userId
      · by_cases h2 : a.1 = uid2
        · exact absurd (h2.symm.trans h) hne
        · simp only [setUser, if_pos h]
          rw [List.find?_cons_of_neg _ (by simp [Ne.symm hne]),
              List.find?_cons_of_neg _ (by simp [h2])]
      · by_cases h2 : a.1 = uid2
        · simp only [setUser, if_neg h]
          rw [List.find?_cons_of_pos _ (by simp [h2]),
              List.find?_cons_of_pos _ (by simp [h2])]
        · simp only [setUser, if_neg h]
          rw [List.find?_cons_of_neg _ (by simp [h2]),
              List.find?_cons_of_neg _ (by simp [h2])]
          exact ih

/-- Assigning an absent key appends one binding. -/
theorem setUser_length_absent (userId : Nat) (s : UserSession) :
    ∀ us : List (Nat × UserSession),
      us.find? (fun p => p.1 == userId) = none →
      (setUser us userId s).length = us.length + 1 := by
  intro us
  induction us with
  | nil => intro _; simp [setUser]
  | cons a t ih =>
      intro h
      by_cases ha : a.1 = userId
      · rw [List.find?_cons_of_pos _ (by simp [ha])] at h
        exact absurd h (by simp)
      · rw [List.find?_cons_of_neg _ (by simp [ha])] at h
        simp only [setUser, if_neg ha, List.length_cons, ih h]

/-- Assigning a present key replaces it in place, preserving the length. -/
theorem setUser_length_present (userId : Nat) (s : UserSession) :
    ∀ (us : List (Nat × UserSession)) (e : Nat × UserSession),
      us.find? (fun p => p.1 == userId) = some e →
      (setUser us userId s).length = us.length := by
  intro us
  induction us with
  | nil => intro e h; simp [List.find?] at h
  | cons a t ih =>
      intro e h
      by_cases ha : a.1 = userId
      · simp [setUser, ha]
      · rw [List.find?_cons_of_neg _ (by simp [ha])] at h
        simp only [setUser, if_neg ha, List.length_cons, ih e h]

/-! ### Helper lemmas about history trimming -/

/-- For `1 ≤ k`, the JS slice `slice(-k)` is the suffix of the `k` most
recent elements. -/
theorem jsSlice_neg {α : Type} (k : Nat) (hk : 1 ≤ k) (l : List α) :
    jsSlice (-(k : Int)) l = l.drop (l.length - k) := by
  have hidx :
      (if (-(k : Int)) < 0 then max ((l.length : Int) + -(k : Int)) 0
       else min (-(k : Int)) (l.length : Int)).toNat = l.length - k := by
    rw [if_pos (by omega)]
    omega
  simp only [jsSlice, hidx]

/-- A history within the configured bound is not trimmed. -/
theorem trimHistory_of_le (H : Nat) (h : List ChatMessage) (hle : h.length ≤ H) :
    trimHistory H h = h := by
  rw [trimHistory, if_neg (by omega)]

/-- For `2 ≤ H`, trimming an over-long history keeps the first system
message (when one exists) in front of the `H − 1` most recent messages. -/
theorem trimHistory_eq (H : Nat) (hH : 2 ≤ H) (h : List ChatMessage)
    (hgt : h.length > H) :
    trimHistory H h =
      match h.find? (fun msg => msg.role == Role.system) with
      | some m => m :: h.drop (h.length - (H - 1))
      | none => h.drop (h.length - (H - 1)) := by
  have hsl : jsSlice (-(H : Int) + 1) h = h.drop (h.length - (H - 1)) := by
    have harg : (-(H : Int) + 1) = -((H - 1 : Nat) : Int) := by omega
    rw [harg, jsSlice_neg (H - 1) (by omega)]
  rw [trimHistory, if_pos hgt, hsl]

/-- One `addMessage` history step (`push` then trim) keeps the length within
the bound and a system message at the head, for `2 ≤ H`. -/
theorem trim_push_invariant (H : Nat) (hH : 2 ≤ H) (s : ChatMessage)
    (hs : s.role = Role.system) (h : List ChatMessage) (hhead : h.head? = some s)
    (hlen : h.length ≤ H) (m : ChatMessage) :
    (trimHistory H (h ++ [m])).head? = some s ∧
    (trimHistory H (h ++ [m])).length ≤ H := by
  cases h with
  | nil => simp at hhead
  | cons a t =>
  simp only [List.head?_cons, Option.some.injEq] at hhead
  subst hhead
  by_cases hgt : (a :: t ++ [m]).length > H
  · have hfind : ((a :: t ++ [m]).find? (fun msg => msg.role == Role.system)) = some a :=
      List.find?_cons_of_pos _ (by simp [hs])
    rw [trimHistory_eq H hH _ hgt, hfind]
    constructor
    · rfl
    · simp only [List.length_cons, List.length_drop]
      omega
  · rw [trimHistory_of_le H _ (by omega)]
    constructor
    · rfl
    · omega

/-! ### Helper lemmas about the inactivity sweep -/

/-- Deleting each id of a list in turn is one filter on key non-membership. -/
theorem foldl_delete_eq_filter :
    ∀ (ids : List Nat) (us : List (Nat × UserSession)),
      ids.foldl (fun acc uid => acc.filter (fun p => p.1 != uid)) us =
        us.filter (fun p => decide (p.1 ∉ ids)) := by
  intro ids
  induction ids with
  | nil => intro us; simp
  | cons a t ih =>
      intro us
      simp only [List.foldl_cons, ih, List.filter_filter]
      congr 1
      funext p
      by_cases h : p.1 = a
      · simp [h]
      · simp [h]

/-- Looking a key up in a key-filtered list, assuming pairwise-distinct keys
(the invariant a JS object enforces). -/
theorem find?_filter_keys (keep : Nat → Bool) (uid : Nat) :
    ∀ (us : List (Nat × UserSession)) (e : Nat × UserSession),
      (us.map Prod.fst).Nodup →
      us.find? (fun p => p.1 == uid) = some e →
      (us.filter (fun p => keep p.1)).find? (fun p => p.1 == uid) =
        (if keep uid then some e else none) := by
  intro us
  induction us with
  | nil => intro e _ hf; simp [List.find?] at hf
  | cons a t ih =>
      intro e hnd hf
      rw [List.map_cons, List.nodup_cons] at hnd
      obtain ⟨hna, hndt⟩ := hnd
      by_cases ha : a.1 = uid
      · rw [List.find?_cons_of_pos _ (by simp [ha])] at hf
        obtain rfl : a = e := Option.some.inj hf
        rw [List.filter_cons]
        by_cases hk : keep a.1
        · rw [if_pos hk, List.find?_cons_of_pos _ (by simp [ha]), if_pos (ha ▸ hk)]
        · rw [if_neg hk, if_neg (fun hc => hk (ha ▸ hc)), List.find?_eq_none]
          intro p hp hbeq
          have hpt : p ∈ t := (List.mem_filter.mp hp).1
          have hpuid : p.1 = uid := by simpa using hbeq
          exact hna (ha ▸ hpuid ▸ List.mem_map_of_mem Prod.fst hpt)
      · rw [List.find?_cons_of_neg _ (by simp [ha])] at hf
        rw [List.filter_cons]
        by_cases hk : keep a.1
        · rw [if_pos hk, List.find?_cons_of_neg _ (by simp [ha])]
          exact ih e hndt hf
        · rw [if_neg hk]
          exact ih e hndt hf

/-! ### Helper lemmas about the statistics counters -/

/-- One API call bumps `totalUsers` exactly when it creates a session and
`totalMessages` exactly when it is a successful append. -/
theorem stepOp_statistics (H : Nat) (db : DatabaseSchema) (op : Op) :
    (stepOp H db op).statistics.totalUsers =
      db.statistics.totalUsers + (if createsSession db op then 1 else 0) ∧
    (stepOp H db op).statistics.totalMessages =
      db.statistics.totalMessages + (if appendSucceeds db op then 1 else 0) := by
  cases op with
  | getSession c u i n =>
      cases h : lookupUser db u <;>
        simp [stepOp, getUserSession, h, createsSession, appendSucceeds]
  | append u m n =>
      cases h : lookupUser db u <;>
        simp [stepOp, addMessage, h, createsSession, appendSucceeds]
  | readHistory u => simp [stepOp, createsSession, appendSucceeds]
  | clear u n =>
      cases h : lookupUser db u <;>
        simp [stepOp, clearHistory, h, createsSession, appendSucceeds]
  | updMemory u p =>
      cases h : lookupUser db u <;>
        simp [stepOp, updateUserMemory, h, createsSession, appendSucceeds]
  | readMemory u => simp [stepOp, createsSession, appendSucceeds]
  | readStats => simp [stepOp, createsSession, appendSucceeds]
  | sweep d n =>
      simp [stepOp, cleanupInactiveUsers, createsSession, appendSucceeds]

/-- Along any trace, the counters grow by exactly the number of creations
and of successful appends. -/
theorem runOps_statistics (H : Nat) :
    ∀ (ops : List Op) (db : DatabaseSchema),
      (runOps H db ops).statistics.totalUsers =
        db.statistics.totalUsers + countCreated H db ops ∧
      (runOps H db ops).statistics.totalMessages =
        db.statistics.totalMessages + countAppended H db ops := by
  intro ops
  induction ops with
  | nil => intro db; simp [runOps, countCreated, countAppended]
  | cons op rest ih =>
      intro db
      have hstep := stepOp_statistics H db op
      have hrest := ih (stepOp H db op)
      simp only [runOps, countCreated, countAppended]
      constructor
      · rw [hrest.1, hstep.1]; omega
      · rw [hrest.2, hstep.2]; omega

/-! ### Evaluation lemmas for the individual operations -/

/-- Looking up the key just assigned. -/
theorem lookupUser_set_self (us : List (Nat × UserSession)) (stats : Statistics)
    (userId : Nat) (s : UserSession) :
    lookupUser ⟨setUser us userId s, stats⟩ userId = some s := by
  simp [lookupUser, find_setUser_self]

/-- `getUserSession` on an absent key: create, seed, count, save. -/
theorem getUserSession_absent (chatId : Int) (userId : Nat) (info : Option UserInfo)
    (now : Nat) (db : DatabaseSchema) (habs : lookupUser db userId = none) :
    getUserSession chatId userId info now db =
      (newSession chatId userId info now,
       { users := setUser db.users userId (newSession chatId userId info now)
         statistics := { db.statistics with totalUsers := db.statistics.totalUsers + 1 } },
       true) := by
  rw [getUserSession, habs]

/-- `getUserSession` on a present key: refresh `lastActivity`, save. -/
theorem getUserSession_present (chatId : Int) (userId : Nat) (info : Option UserInfo)
    (now : Nat) (db : DatabaseSchema) (s : UserSession)
    (h : lookupUser db userId = some s) :
    getUserSession chatId userId info now db =
      ({ s with lastActivity := now },
       { db with users := setUser db.users userId { s with lastActivity := now } },
       true) := by
  rw [getUserSession, h]

/-- `addMessage` on a present key: push, trim, refresh, count, save. -/
theorem addMessage_present (H : Nat) (userId : Nat) (m : ChatMessage) (now : Nat)
    (db : DatabaseSchema) (s : UserSession) (h : lookupUser db userId = some s) :
    addMessage H userId m now db =
      (Except.ok (),
       { users := setUser db.users userId
           { s with history := trimHistory H (s.history ++ [m]), lastActivity := now }
         statistics := { db.statistics with totalMessages := db.statistics.totalMessages + 1 } },
       true) := by
  rw [addMessage, h]

/-- `clearHistory` on a present key: reseed the history only. -/
theorem clearHistory_present (userId : Nat) (now : Nat) (db : DatabaseSchema)
    (s : UserSession) (h : lookupUser db userId = some s) :
    clearHistory userId now db =
      ({ db with users := setUser db.users userId { s with history := [seedMessage now] } },
       true) := by
  rw [clearHistory, h]

/-- `updateUserMemory` on a present key: shallow-merge the profile only. -/
theorem updateUserMemory_present (userId : Nat) (p : MemoryPatch) (db : DatabaseSchema)
    (s : UserSession) (h : lookupUser db userId = some s) :
    updateUserMemory userId p db =
      ({ db with users := setUser db.users userId { s with userMemory := mergeMemory s.userMemory p } },
       true) := by
  rw [updateUserMemory, h]

/-! ### Fixtures for witnesses and counterexamples -/

/-- A one-session store whose session was last touched at time 5. -/
def dbFix : DatabaseSchema :=
  mkDb 7 (mkSession 7 [seedMessage 0] 5) { totalUsers := 1, totalMessages := 0, lastReset := 0 }

/-- A concrete persona document for the prompt-assembly witness. -/
def cpFix : CustomPrompt :=
  { persona := "p", tone := "t", style := "", systemInstructions := [] }

/-! ### Claim theorems -/

/-- C8: for a userId with no existing session, `addMessage` fails with an
error while `getHistory` returns `[]`, `getUserMemory` returns `none`, and
`clearHistory`/`updateUserMemory` are error-free no-ops that do not save. -/
theorem absent_session_behavior (H : Nat) (userId : Nat) (db : DatabaseSchema)
    (habs : lookupUser db userId = none) :
    (∀ (m : ChatMessage) (now : Nat),
      addMessage H userId m now db = (Except.error "User session not found", db, false)) ∧
    getHistory userId db = [] ∧
    getUserMemory userId db = none ∧
    (∀ now : Nat, clearHistory userId now db = (db, false)) ∧
    (∀ p : MemoryPatch, updateUserMemory userId p db = (db, false)) := by
  refine ⟨fun m now => ?_, ?_, ?_, fun now => ?_, fun p => ?_⟩
  · rw [addMessage, habs]
  · rw [getHistory, habs]
  · rw [getUserMemory, habs]
  · rw [clearHistory, habs]
  · rw [updateUserMemory, habs]

/-- Witness for C8 on the freshly initialized empty store. -/
theorem absent_session_behavior_witness :
    lookupUser (initialStore 0) 7 = none ∧
    addMessage 30 7 (msgOf Role.user "hi" 1) 1 (initialStore 0) =
      (Except.error "User session not found", initialStore 0, false) ∧
    getHistory 7 (initialStore 0) = [] ∧
    getUserMemory 7 (initialStore 0) = none ∧
    clearHistory 7 5 (initialStore 0) = (initialStore 0, false) ∧
    updateUserMemory 7
      { interests := none, preferences := none, goals := none, communicationStyle := none }
      (initialStore 0) = (initialStore 0, false) :=
  ⟨rfl,
   (absent_session_behavior 30 7 (initialStore 0) rfl).1 _ _,
   (absent_session_behavior 30 7 (initialStore 0) rfl).2.1,
   (absent_session_behavior 30 7 (initialStore 0) rfl).2.2.1,
   (absent_session_behavior 30 7 (initialStore 0) rfl).2.2.2.1 _,
   (absent_session_behavior 30 7 (initialStore 0) rfl).2.2.2.2 _⟩

/-- C10: `addMessage` on a userId with no session fails atomically: the
returned store is the input store (no message stored, counters and
`lastActivity` untouched) and no persistence write happens. -/
theorem addMessage_absent_atomic (H : Nat) (userId : Nat) (m : ChatMessage)
    (now : Nat) (db : DatabaseSchema) (habs : lookupUser db userId = none) :
    addMessage H userId m now db = (Except.error "User session not found", db, false) ∧
    (addMessage H userId m now db).2.1 = db ∧
    (addMessage H userId m now db).2.1.statistics.totalMessages = db.statistics.totalMessages ∧
    (addMessage H userId m now db).2.2 = false := by
  have h : addMessage H userId m now db = (Except.error "User session not found", db, false) := by
    rw [addMessage, habs]
  exact ⟨h, by rw [h], by rw [h], by rw [h]⟩

/-- Witness for C10 on a non-empty store lacking the target key. -/
theorem addMessage_absent_atomic_witness :
    lookupUser dbFix 9 = none ∧
    addMessage 30 9 (msgOf Role.user "hi" 1) 1 dbFix =
      (Except.error "User session not found", dbFix, false) ∧
    (addMessage 30 9 (msgOf Role.user "hi" 1) 1 dbFix).2.1 = dbFix ∧
    (addMessage 30 9 (msgOf Role.user "hi" 1) 1 dbFix).2.1.statistics.totalMessages =
      dbFix.statistics.totalMessages ∧
    (addMessage 30 9 (msgOf Role.user "hi" 1) 1 dbFix).2.2 = false :=
  ⟨rfl,
   (addMessage_absent_atomic 30 9 (msgOf Role.user "hi" 1) 1 dbFix rfl).1,
   (addMessage_absent_atomic 30 9 (msgOf Role.user "hi" 1) 1 dbFix rfl).2.1,
   (addMessage_absent_atomic 30 9 (msgOf Role.user "hi" 1) 1 dbFix rfl).2.2.1,
   (addMessage_absent_atomic 30 9 (msgOf Role.user "hi" 1) 1 dbFix rfl).2.2.2⟩

/-- C9: prompt assembly is deterministic — equal (persona document,
memory-enabled flag, history, memory) inputs give byte-identical turn
sequences; the function has no other inputs (no store, no clock, no I/O). -/
theorem prepareConversationHistory_deterministic
    (cp1 cp2 : CustomPrompt) (e1 e2 : Bool) (ms1 ms2 : List ChatMessage)
    (um1 um2 : Option UserMemory) (hcp : cp1 = cp2) (he : e1 = e2)
    (hms : ms1 = ms2) (hum : um1 = um2) :
    prepareConversationHistory cp1 e1 ms1 um1 = prepareConversationHistory cp2 e2 ms2 um2 := by
  rw [hcp, he, hms, hum]

/-- Witness for C9, with a concrete evaluation of the assembler: the system
block becomes the opening user/model pair and system messages are skipped. -/
theorem prepareConversationHistory_deterministic_witness :
    cpFix = cpFix ∧
    prepareConversationHistory cpFix true [msgOf Role.user "x" 0] (some defaultUserMemory) =
      prepareConversationHistory cpFix true [msgOf Role.user "x" 0] (some defaultUserMemory) ∧
    prepareConversationHistory cpFix false [msgOf Role.system "s" 0, msgOf Role.user "x" 1] none =
      [{ role := "user", text := "p\n\nТон общения: t" },
       { role := "model", text := "Понял! Я готов помочь и буду учитывать контекст нашего разговора." },
       { role := "user", text := "x" }] :=
  ⟨rfl,
   prepareConversationHistory_deterministic cpFix cpFix true true _ _ _ _ rfl rfl rfl rfl,
   rfl⟩

/-- C6: `updateUserMemory` merges shallowly — every field provided in the
patch replaces the stored field wholesale, every omitted field is preserved
unchanged. -/
theorem updateUserMemory_shallow_merge (userId : Nat) (db : DatabaseSchema)
    (u : UserSession) (hu : lookupUser db userId = some u) :
    ∀ p : MemoryPatch, ∃ m2 : UserMemory,
      (lookupUser (updateUserMemory userId p db).1 userId).map (fun v => v.userMemory) = some m2 ∧
      (p.interests = none → m2.interests = u.userMemory.interests) ∧
      (p.preferences = none → m2.preferences = u.userMemory.preferences) ∧
      (p.goals = none → m2.goals = u.userMemory.goals) ∧
      (p.communicationStyle = none → m2.communicationStyle = u.userMemory.communicationStyle) ∧
      (∀ v, p.interests = some v → m2.interests = v) ∧
      (∀ v, p.preferences = some v → m2.preferences = v) ∧
      (∀ v, p.goals = some v → m2.goals = v) ∧
      (∀ v, p.communicationStyle = some v → m2.communicationStyle = v) := by
  intro p
  refine ⟨mergeMemory u.userMemory p, ?_, ?_, ?_, ?_, ?_, ?_, ?_, ?_, ?_⟩
  · rw [updateUserMemory_present userId p db u hu]
    simp [lookupUser_set_self]
  · intro h; simp [mergeMemory, h]
  · intro h; simp [mergeMemory, h]
  · intro h; simp [mergeMemory, h]
  · intro h; simp [mergeMemory, h]
  · intro v h; simp [mergeMemory, h]
  · intro v h; simp [mergeMemory, h]
  · intro v h; simp [mergeMemory, h]
  · intro v h; simp [mergeMemory, h]

/-- A patch that updates only `goals`, for the C6 witness. -/
def patchGoalsOnly : MemoryPatch :=
  { interests := none, preferences := none,
    goals := some ["новая цель"], communicationStyle := none }

/-- Witness for C6: a goals-only update leaves the other three fields
byte-identical to the defaults the session carried. -/
theorem updateUserMemory_shallow_merge_witness :
    lookupUser dbFix 7 = some (mkSession 7 [seedMessage 0] 5) ∧
    (∃ m2 : UserMemory,
      (lookupUser (updateUserMemory 7 patchGoalsOnly dbFix).1 7).map
        (fun v => v.userMemory) = some m2 ∧
      (patchGoalsOnly.interests = none →
        m2.interests = (mkSession 7 [seedMessage 0] 5).userMemory.interests) ∧
      (patchGoalsOnly.preferences = none →
        m2.preferences = (mkSession 7 [seedMessage 0] 5).userMemory.preferences) ∧
      (patchGoalsOnly.goals = none →
        m2.goals = (mkSession 7 [seedMessage 0] 5).userMemory.goals) ∧
      (patchGoalsOnly.communicationStyle = none →
        m2.communicationStyle = (mkSession 7 [seedMessage 0] 5).userMemory.communicationStyle) ∧
      (∀ v, patchGoalsOnly.interests = some v → m2.interests = v) ∧
      (∀ v, patchGoalsOnly.preferences = some v → m2.preferences = v) ∧
      (∀ v, patchGoalsOnly.goals = some v → m2.goals = v) ∧
      (∀ v, patchGoalsOnly.communicationStyle = some v → m2.communicationStyle = v)) ∧
    (lookupUser (updateUserMemory 7 patchGoalsOnly dbFix).1 7).map
      (fun v => v.userMemory) =
      some { defaultUserMemory with goals := ["новая цель"] } :=
  ⟨rfl,
   updateUserMemory_shallow_merge 7 dbFix (mkSession 7 [seedMessage 0] 5) rfl patchGoalsOnly,
   rfl⟩

/-- C5: two consecutive `getUserSession` calls for the same unseen userId
create exactly one session and bump `totalUsers` by exactly 1 in total; the
second call returns the first call's session with only `lastActivity`
refreshed. -/
theorem getUserSession_idempotent_init
    (chatId1 chatId2 : Int) (userId : Nat) (info1 info2 : Option UserInfo)
    (n1 n2 : Nat) (db : DatabaseSchema) (habs : lookupUser db userId = none) :
    (getUserSession chatId1 userId info1 n1 db).2.1.statistics.totalUsers
      = db.statistics.totalUsers + 1 ∧
    (getUserSession chatId2 userId info2 n2
        (getUserSession chatId1 userId info1 n1 db).2.1).2.1.statistics.totalUsers
      = db.statistics.totalUsers + 1 ∧
    (getUserSession chatId1 userId info1 n1 db).2.1.users.length = db.users.length + 1 ∧
    (getUserSession chatId2 userId info2 n2
        (getUserSession chatId1 userId info1 n1 db).2.1).2.1.users.length
      = db.users.length + 1 ∧
    (getUserSession chatId2 userId info2 n2 (getUserSession chatId1 userId info1 n1 db).2.1).1
      = { (getUserSession chatId1 userId info1 n1 db).1 with lastActivity := n2 } ∧
    lookupUser (getUserSession chatId2 userId info2 n2
        (getUserSession chatId1 userId info1 n1 db).2.1).2.1 userId
      = some (getUserSession chatId2 userId info2 n2
          (getUserSession chatId1 userId info1 n1 db).2.1).1 := by
  have hfind : db.users.find? (fun p => p.1 == userId) = none := by
    simp only [lookupUser] at habs
    exact Option.map_eq_none'.mp habs
  have h1 := getUserSession_absent chatId1 userId info1 n1 db habs
  have hl1 : lookupUser (getUserSession chatId1 userId info1 n1 db).2.1 userId
      = some (newSession chatId1 userId info1 n1) := by
    rw [h1]; exact lookupUser_set_self _ _ _ _
  have h2 := getUserSession_present chatId2 userId info2 n2
    (getUserSession chatId1 userId info1 n1 db).2.1 (newSession chatId1 userId info1 n1) hl1
  refine ⟨?_, ?_, ?_, ?_, ?_, ?_⟩
  · rw [h1]
  · rw [h2, h1]
  · rw [h1]; exact setUser_length_absent userId _ db.users hfind
  · rw [h2, h1]
    have hlen2 := setUser_length_present userId
      { newSession chatId1 userId info1 n1 with lastActivity := n2 }
      (setUser db.users userId (newSession chatId1 userId info1 n1))
      (userId, newSession chatId1 userId info1 n1)
      (find_setUser_self userId (newSession chatId1 userId info1 n1) db.users)
    simp only [hlen2]
    exact setUser_length_absent userId _ db.users hfind
  · rw [h2, h1]
  · rw [h2]
    exact lookupUser_set_self _ _ _ _

/-- Witness for C5 on the freshly initialized empty store. -/
theorem getUserSession_idempotent_init_witness :
    lookupUser (initialStore 0) 7 = none ∧
    ((getUserSession 1 7 none 3 (initialStore 0)).2.1.statistics.totalUsers = 0 + 1 ∧
     (getUserSession 2 7 none 9
        (getUserSession 1 7 none 3 (initialStore 0)).2.1).2.1.statistics.totalUsers = 0 + 1 ∧
     (getUserSession 1 7 none 3 (initialStore 0)).2.1.users.length = 0 + 1 ∧
     (getUserSession 2 7 none 9
        (getUserSession 1 7 none 3 (initialStore 0)).2.1).2.1.users.length = 0 + 1 ∧
     (getUserSession 2 7 none 9 (getUserSession 1 7 none 3 (initialStore 0)).2.1).1
       = { (getUserSession 1 7 none 3 (initialStore 0)).1 with lastActivity := 9 } ∧
     lookupUser (getUserSession 2 7 none 9
        (getUserSession 1 7 none 3 (initialStore 0)).2.1).2.1 7
       = some (getUserSession 2 7 none 9
           (getUserSession 1 7 none 3 (initialStore 0)).2.1).1) :=
  ⟨rfl, getUserSession_idempotent_init 1 2 7 none none 3 9 (initialStore 0) rfl⟩

/-- C4 (amended): only `getOrCreateSession` on an existing user and
`appendMessage` refresh `lastActivity`; `clearHistory` and `updateMemory`
mutate their field but leave `lastActivity` unchanged, and the history and
memory reads are pure (they neither touch the timestamp nor the store). -/
theorem lastActivity_touch_behavior (H : Nat) (userId : Nat) (db : DatabaseSchema)
    (u : UserSession) (hu : lookupUser db userId = some u) :
    (∀ (c : Int) (i : Option UserInfo) (now : Nat),
      (lookupUser (getUserSession c userId i now db).2.1 userId).map
        (fun v => v.lastActivity) = some now) ∧
    (∀ (m : ChatMessage) (now : Nat),
      (lookupUser (addMessage H userId m now db).2.1 userId).map
        (fun v => v.lastActivity) = some now) ∧
    (∀ now : Nat,
      (lookupUser (clearHistory userId now db).1 userId).map
        (fun v => v.lastActivity) = some u.lastActivity) ∧
    (∀ p : MemoryPatch,
      (lookupUser (updateUserMemory userId p db).1 userId).map
        (fun v => v.lastActivity) = some u.lastActivity) ∧
    getHistory userId db = u.history ∧
    getUserMemory userId db = some u.userMemory := by
  refine ⟨fun c i now => ?_, fun m now => ?_, fun now => ?_, fun p => ?_, ?_, ?_⟩
  · rw [getUserSession_present c userId i now db u hu, lookupUser_set_self]; rfl
  · rw [addMessage_present H userId m now db u hu, lookupUser_set_self]; rfl
  · rw [clearHistory_present userId now db u hu, lookupUser_set_self]; rfl
  · rw [updateUserMemory_present userId p db u hu, lookupUser_set_self]; rfl
  · rw [getHistory, hu]
  · rw [getUserMemory, hu]

/-- Witness for C4's amended statement on the concrete fixture store. -/
theorem lastActivity_touch_behavior_witness :
    lookupUser dbFix 7 = some (mkSession 7 [seedMessage 0] 5) ∧
    ((∀ (c : Int) (i : Option UserInfo) (now : Nat),
       (lookupUser (getUserSession c 7 i now dbFix).2.1 7).map
         (fun v => v.lastActivity) = some now) ∧
     (∀ (m : ChatMessage) (now : Nat),
       (lookupUser (addMessage 30 7 m now dbFix).2.1 7).map
         (fun v => v.lastActivity) = some now) ∧
     (∀ now : Nat,
       (lookupUser (clearHistory 7 now dbFix).1 7).map
         (fun v => v.lastActivity) = some (mkSession 7 [seedMessage 0] 5).lastActivity) ∧
     (∀ p : MemoryPatch,
       (lookupUser (updateUserMemory 7 p dbFix).1 7).map
         (fun v => v.lastActivity) = some (mkSession 7 [seedMessage 0] 5).lastActivity) ∧
     getHistory 7 dbFix = (mkSession 7 [seedMessage 0] 5).history ∧
     getUserMemory 7 dbFix = some (mkSession 7 [seedMessage 0] 5).userMemory) :=
  ⟨rfl, lastActivity_touch_behavior 30 7 dbFix (mkSession 7 [seedMessage 0] 5) rfl⟩

/-- C4 counterexample: `clearHistory` at time 10 on a session last touched
at time 5 demonstrably runs (it reseeds the history with a timestamp-10
message) yet leaves `lastActivity` at 5, contradicting the claim that every
touch updates it. -/
theorem lastActivity_clearHistory_counterexample :
    (lookupUser dbFix 7).map (fun v => v.lastActivity) = some 5 ∧
    (lookupUser (clearHistory 7 10 dbFix).1 7).map (fun v => v.history) =
      some [seedMessage 10] ∧
    (lookupUser (clearHistory 7 10 dbFix).1 7).map (fun v => v.lastActivity) = some 5 ∧
    (5 : Nat) ≠ 10 :=
  ⟨rfl, rfl, rfl, by decide⟩

/-- Store reached by creating session 7 at time 1 and appending a second
system message, then two user messages, with `maxHistoryLength = 3`. -/
def dbA : DatabaseSchema := (getUserSession 1 7 none 1 (initialStore 0)).2.1

/-- `dbA` after appending the system message "b". -/
def dbB : DatabaseSchema := (addMessage 3 7 (msgOf Role.system "b" 2) 2 dbA).2.1

/-- `dbB` after appending the user message "x". -/
def dbC : DatabaseSchema := (addMessage 3 7 (msgOf Role.user "x" 3) 3 dbB).2.1

/-- `dbC` after appending the user message "y" (this append trims). -/
def dbD : DatabaseSchema := (addMessage 3 7 (msgOf Role.user "y" 4) 4 dbC).2.1

/-- C1 counterexample: a session reachable through the public API holds two
system messages; the trimming append keeps the FIRST system message
(the seed), not the most recent one "b" — and "b", though a system message
present in history, is evicted. -/
theorem trim_keeps_first_system_counterexample :
    getHistory 7 dbC =
      [seedMessage 1, msgOf Role.system "b" 2, msgOf Role.user "x" 3] ∧
    specMostRecentSystem (getHistory 7 dbC ++ [msgOf Role.user "y" 4]) =
      some (msgOf Role.system "b" 2) ∧
    getHistory 7 dbD = [seedMessage 1, msgOf Role.user "x" 3, msgOf Role.user "y" 4] ∧
    (getHistory 7 dbD).head? ≠ some (msgOf Role.system "b" 2) ∧
    msgOf Role.system "b" 2 ∉ getHistory 7 dbD :=
  ⟨rfl, rfl, rfl, by decide, by decide⟩

/-- C1 (amended): for `2 ≤ H`, when an append overflows the bound the
resulting history is the first (oldest) message with role `system` (if any
exists) followed by the `H − 1` most recent messages in original order; the
spec's `H = 3` example scenario holds. -/
theorem addMessage_trim_retention (H : Nat) (hH : 2 ≤ H) (userId now : Nat)
    (db : DatabaseSchema) (u : UserSession) (m : ChatMessage)
    (hu : lookupUser db userId = some u) (hgt : u.history.length + 1 > H) :
    ∃ u2, lookupUser (addMessage H userId m now db).2.1 userId = some u2 ∧
      u2.history =
        (match (u.history ++ [m]).find? (fun msg => msg.role == Role.system) with
         | some sm => sm :: lastN (H - 1) (u.history ++ [m])
         | none => lastN (H - 1) (u.history ++ [m])) := by
  refine ⟨{ u with history := trimHistory H (u.history ++ [m]), lastActivity := now }, ?_, ?_⟩
  · rw [addMessage_present H userId m now db u hu, lookupUser_set_self]
  · show trimHistory H (u.history ++ [m]) = _
    rw [trimHistory_eq H hH _ (by simp only [List.length_append, List.length_cons]; omega)]
    simp only [lastN]

/-- Session fixture for the spec's `H = 3` example: history already holds
the seed, "hi" and "hello". -/
def exDb : DatabaseSchema :=
  mkDb 7 (mkSession 7 [seedMessage 0, msgOf Role.user "hi" 1, msgOf Role.assistant "hello" 2] 2)
    { totalUsers := 1, totalMessages := 2, lastReset := 0 }

/-- Witness for C1's amended statement at the spec's example: appending
user("bye") with `H = 3` yields `[system seed, assistant hello, user bye]`. -/
theorem addMessage_trim_retention_witness :
    2 ≤ 3 ∧
    lookupUser exDb 7 =
      some (mkSession 7 [seedMessage 0, msgOf Role.user "hi" 1, msgOf Role.assistant "hello" 2] 2) ∧
    (mkSession 7 [seedMessage 0, msgOf Role.user "hi" 1,
        msgOf Role.assistant "hello" 2] 2).history.length + 1 > 3 ∧
    (∃ u2, lookupUser (addMessage 3 7 (msgOf Role.user "bye" 3) 3 exDb).2.1 7 = some u2 ∧
      u2.history =
        (match ((mkSession 7 [seedMessage 0, msgOf Role.user "hi" 1,
              msgOf Role.assistant "hello" 2] 2).history ++ [msgOf Role.user "bye" 3]).find?
            (fun msg => msg.role == Role.system) with
         | some sm => sm :: lastN (3 - 1) ((mkSession 7 [seedMessage 0, msgOf Role.user "hi" 1,
              msgOf Role.assistant "hello" 2] 2).history ++ [msgOf Role.user "bye" 3])
         | none => lastN (3 - 1) ((mkSession 7 [seedMessage 0, msgOf Role.user "hi" 1,
              msgOf Role.assistant "hello" 2] 2).history ++ [msgOf Role.user "bye" 3]))) ∧
    getHistory 7 (addMessage 3 7 (msgOf Role.user "bye" 3) 3 exDb).2.1 =
      [seedMessage 0, msgOf Role.assistant "hello" 2, msgOf Role.user "bye" 3] :=
  ⟨by decide, rfl, by decide,
   addMessage_trim_retention 3 (by decide) 7 3 exDb
     (mkSession 7 [seedMessage 0, msgOf Role.user "hi" 1, msgOf Role.assistant "hello" 2] 2)
     (msgOf Role.user "bye" 3) rfl (by decide),
   rfl⟩

/-- Store holding one freshly created session (seeded at time 0) used for
the `H = 1` counterexample. -/
def dbH1 : DatabaseSchema := (getUserSession 1 7 none 0 (initialStore 0)).2.1

/-- C2 counterexample: with configured maximum `H = 1` the claim fails —
one successful append leaves the history at length 3 (the JS
`slice(-H + 1)` degenerates to `slice(0)` and the found system message is
prepended on top of the whole history), exceeding the cap. -/
theorem bounded_history_cap_one_counterexample :
    getHistory 7 dbH1 = [seedMessage 0] ∧
    (getHistory 7 (addMessage 1 7 (msgOf Role.user "a" 5) 5 dbH1).2.1).length = 3 ∧
    ¬ (getHistory 7 (addMessage 1 7 (msgOf Role.user "a" 5) 5 dbH1).2.1).length ≤ 1 :=
  ⟨rfl, rfl, by decide⟩

/-- C2 (amended, `2 ≤ H`): starting from a session whose history is the
single seeded system message, after every sequence of successful appends
the history length stays ≤ H and the seeded system message stays at
index 0. -/
theorem appendMessage_bounded_history (H : Nat) (hH : 2 ≤ H) (userId t0 : Nat)
    (db : DatabaseSchema) (u : UserSession) (hu : lookupUser db userId = some u)
    (hinit : u.history = [seedMessage t0]) :
    ∀ msgs : List (ChatMessage × Nat),
      ∃ u2, lookupUser (runAppends H userId db msgs) userId = some u2 ∧
        u2.history.length ≤ H ∧ u2.history.head? = some (seedMessage t0) := by
  have main : ∀ (msgs : List (ChatMessage × Nat)) (db : DatabaseSchema) (u : UserSession),
      lookupUser db userId = some u → u.history.length ≤ H →
      u.history.head? = some (seedMessage t0) →
      ∃ u2, lookupUser (runAppends H userId db msgs) userId = some u2 ∧
        u2.history.length ≤ H ∧ u2.history.head? = some (seedMessage t0) := by
    intro msgs
    induction msgs with
    | nil =>
        intro db u hu2 hlen hhead
        exact ⟨u, by simpa [runAppends] using hu2, hlen, hhead⟩
    | cons mn rest ih =>
        intro db u hu2 hlen hhead
        obtain ⟨m, n⟩ := mn
        have hinv := trim_push_invariant H hH (seedMessage t0) rfl u.history hhead hlen m
        simp only [runAppends]
        exact ih (addMessage H userId m n db).2.1
          { u with history := trimHistory H (u.history ++ [m]), lastActivity := n }
          (by rw [addMessage_present H userId m n db u hu2]
              exact lookupUser_set_self _ _ _ _)
          hinv.2 hinv.1
  intro msgs
  exact main msgs db u hu
    (by rw [hinit]; simp only [List.length_singleton]; omega)
    (by rw [hinit]; rfl)

/-- The message sequence of the spec's example plus one more append. -/
def msgsFix : List (ChatMessage × Nat) :=
  [(msgOf Role.user "hi" 1, 1), (msgOf Role.assistant "hello" 2, 2),
   (msgOf Role.user "bye" 3, 3), (msgOf Role.user "again" 4, 4)]

/-- Witness for C2's amended statement: four appends with `H = 3` keep the
history bounded by 3 with the seed at index 0. -/
theorem appendMessage_bounded_history_witness :
    2 ≤ 3 ∧
    lookupUser dbFix 7 = some (mkSession 7 [seedMessage 0] 5) ∧
    (mkSession 7 [seedMessage 0] 5).history = [seedMessage 0] ∧
    (∃ u2, lookupUser (runAppends 3 7 dbFix msgsFix) 7 = some u2 ∧
      u2.history.length ≤ 3 ∧ u2.history.head? = some (seedMessage 0)) ∧
    getHistory 7 (runAppends 3 7 dbFix msgsFix) =
      [seedMessage 0, msgOf Role.user "bye" 3, msgOf Role.user "again" 4] :=
  ⟨by decide, rfl, rfl,
   appendMessage_bounded_history 3 (by decide) 7 0 dbFix
     (mkSession 7 [seedMessage 0] 5) rfl rfl msgsFix,
   rfl⟩

/-- C3: with pairwise-distinct keys (the invariant a JS object enforces),
`cleanupInactiveUsers` deletes exactly the sessions whose `lastActivity` is
strictly older than the cutoff `now − D` (`D = daysInactive·86400000` ms):
a sweep at `T + D − 1` keeps a session touched at `T`, a sweep at
`T + D + 1` deletes it; the statistics (hence `totalUsers`) are never
changed; and when nothing qualifies the store is returned unchanged with no
persistence write. -/
theorem sweepInactive_exact (d : Nat) (db : DatabaseSchema)
    (hkeys : (db.users.map Prod.fst).Nodup) :
    (∀ (now uid : Nat) (s : UserSession), lookupUser db uid = some s →
      lookupUser (cleanupInactiveUsers d now db).1 uid =
        (if s.lastActivity < now - d * 86400000 then none else some s)) ∧
    (∀ now : Nat, (cleanupInactiveUsers d now db).1.statistics = db.statistics) ∧
    (∀ now : Nat, (∀ p ∈ db.users, ¬ p.2.lastActivity < now - d * 86400000) →
      (cleanupInactiveUsers d now db).1 = db ∧ (cleanupInactiveUsers d now db).2 = false) ∧
    (∀ (T uid : Nat) (s : UserSession), lookupUser db uid = some s → s.lastActivity = T →
      lookupUser (cleanupInactiveUsers d (T + d * 86400000 - 1) db).1 uid = some s ∧
      lookupUser (cleanupInactiveUsers d (T + d * 86400000 + 1) db).1 uid = none) := by
  have husers : ∀ now : Nat, (cleanupInactiveUsers d now db).1.users =
      db.users.filter (fun p => decide (p.1 ∉
        ((db.users.filter (fun q =>
          decide (q.2.lastActivity < now - d * 86400000))).map Prod.fst))) := by
    intro now
    simp only [cleanupInactiveUsers]
    exact foldl_delete_eq_filter _ _
  have hmain : ∀ (now uid : Nat) (s : UserSession), lookupUser db uid = some s →
      lookupUser (cleanupInactiveUsers d now db).1 uid =
        (if s.lastActivity < now - d * 86400000 then none else some s) := by
    intro now uid s hs
    obtain ⟨e, he, hes⟩ : ∃ e, db.users.find? (fun p => p.1 == uid) = some e ∧ e.2 = s := by
      simp only [lookupUser] at hs
      obtain ⟨e, he1, he2⟩ := Option.map_eq_some'.mp hs
      exact ⟨e, he1, he2⟩
    have heuid : e.1 = uid := by
      have := List.find?_some he
      simpa using this
    have hmem : e ∈ db.users := List.mem_of_find?_eq_some he
    have hmem_ids : uid ∈ ((db.users.filter (fun q =>
        decide (q.2.lastActivity < now - d * 86400000))).map Prod.fst) ↔
        e.2.lastActivity < now - d * 86400000 := by
      constructor
      · intro hin
        obtain ⟨p, hpfil, hpuid⟩ := List.mem_map.mp hin
        obtain ⟨hpus, hpstale⟩ := List.mem_filter.mp hpfil
        have hpe : p = e :=
          List.inj_on_of_nodup_map hkeys hpus hmem (by rw [hpuid, heuid])
        rw [← hpe]
        exact of_decide_eq_true hpstale
      · intro hst
        exact List.mem_map.mpr ⟨e, List.mem_filter.mpr ⟨hmem, decide_eq_true hst⟩, heuid⟩
    have hfk := find?_filter_keys (fun k => decide (k ∉ ((db.users.filter (fun q =>
        decide (q.2.lastActivity < now - d * 86400000))).map Prod.fst))) uid
        db.users e hkeys he
    simp only [lookupUser, husers now, hfk]
    by_cases hst : e.2.lastActivity < now - d * 86400000
    · have hin := hmem_ids.mpr hst
      rw [if_neg (by simp only [decide_eq_true_eq]; exact fun hno => hno hin),
          if_pos (hes ▸ hst)]
      rfl
    · have hnin : uid ∉ ((db.users.filter (fun q =>
          decide (q.2.lastActivity < now - d * 86400000))).map Prod.fst) :=
        fun hin => hst (hmem_ids.mp hin)
      rw [if_pos (by simp only [decide_eq_true_eq]; exact hnin),
          if_neg (hes ▸ hst), ← hes]
      rfl
  refine ⟨hmain, fun now => rfl, fun now hnone => ?_, fun T uid s hs hT => ?_⟩
  · have hfil : db.users.filter (fun q =>
        decide (q.2.lastActivity < now - d * 86400000)) = [] := by
      rw [List.filter_eq_nil_iff]
      intro p hp
      simpa using hnone p hp
    constructor
    · simp only [cleanupInactiveUsers, hfil, List.map_nil, List.foldl_nil]
    · simp only [cleanupInactiveUsers, hfil, List.map_nil]
      rfl
  · constructor
    · have h := hmain (T + d * 86400000 - 1) uid s hs
      rwa [if_neg (by omega)] at h
    · have h := hmain (T + d * 86400000 + 1) uid s hs
      rwa [if_pos (by omega)] at h

/-- Two-session store for the sweep witness: session 2 touched at time 500,
session 7 touched at time 0. -/
def dbSweep : DatabaseSchema :=
  { users := [(2, mkSession 2 [] 500), (7, mkSession 7 [] 0)]
    statistics := { totalUsers := 2, totalMessages := 0, lastReset := 0 } }

/-- Witness for C3: sweeping `dbSweep` at time 100 with `daysInactive = 0`
deletes exactly session 7, keeps session 2, and leaves the statistics
untouched; sweeping at time 0 deletes nothing and does not save. -/
theorem sweepInactive_exact_witness :
    (dbSweep.users.map Prod.fst).Nodup ∧
    ((∀ (now uid : Nat) (s : UserSession), lookupUser dbSweep uid = some s →
       lookupUser (cleanupInactiveUsers 0 now dbSweep).1 uid =
         (if s.lastActivity < now - 0 * 86400000 then none else some s)) ∧
     (∀ now : Nat, (cleanupInactiveUsers 0 now dbSweep).1.statistics = dbSweep.statistics) ∧
     (∀ now : Nat, (∀ p ∈ dbSweep.users, ¬ p.2.lastActivity < now - 0 * 86400000) →
       (cleanupInactiveUsers 0 now dbSweep).1 = dbSweep ∧
       (cleanupInactiveUsers 0 now dbSweep).2 = false) ∧
     (∀ (T uid : Nat) (s : UserSession), lookupUser dbSweep uid = some s →
       s.lastActivity = T →
       lookupUser (cleanupInactiveUsers 0 (T + 0 * 86400000 - 1) dbSweep).1 uid = some s ∧
       lookupUser (cleanupInactiveUsers 0 (T + 0 * 86400000 + 1) dbSweep).1 uid = none)) ∧
    lookupUser (cleanupInactiveUsers 0 100 dbSweep).1 7 = none ∧
    lookupUser (cleanupInactiveUsers 0 100 dbSweep).1 2 = some (mkSession 2 [] 500) ∧
    (cleanupInactiveUsers 0 100 dbSweep).1.statistics = dbSweep.statistics ∧
    (cleanupInactiveUsers 0 0 dbSweep).2 = false :=
  ⟨by decide, sweepInactive_exact 0 dbSweep (by decide), rfl, rfl, rfl, rfl⟩

/-- C7: from the freshly initialized store, along every trace of API calls
`totalUsers` equals the number of sessions ever created and `totalMessages`
the number of successful appends; every single call leaves both counters
no smaller than before; and the sweep never changes the statistics at all
(deletions never decrement `totalUsers`). -/
theorem statistics_counters_exact_and_monotone :
    (∀ (H t : Nat) (ops : List Op),
      (runOps H (initialStore t) ops).statistics.totalUsers =
        countCreated H (initialStore t) ops ∧
      (runOps H (initialStore t) ops).statistics.totalMessages =
        countAppended H (initialStore t) ops) ∧
    (∀ (H : Nat) (db : DatabaseSchema) (op : Op),
      db.statistics.totalUsers ≤ (stepOp H db op).statistics.totalUsers ∧
      db.statistics.totalMessages ≤ (stepOp H db op).statistics.totalMessages) ∧
    (∀ (d n : Nat) (db : DatabaseSchema),
      (cleanupInactiveUsers d n db).1.statistics = db.statistics) := by
  refine ⟨fun H t ops => ?_, fun H db op => ?_, fun d n db => rfl⟩
  · have h := runOps_statistics H ops (initialStore t)
    refine ⟨by rw [h.1]; exact Nat.zero_add _, by rw [h.2]; exact Nat.zero_add _⟩
  · have h := stepOp_statistics H db op
    exact ⟨h.1 ▸ Nat.le_add_right _ _, h.2 ▸ Nat.le_add_right _ _⟩

end Mehelp
